import Mathlib

/-!
Verification of the command-queue core of an eSSL / ZKTeco mock sync server
(src/server.js).  The server keeps, per device serial number (SN), an ordered
queue of commands together with a monotone id sequencer, and exposes four
mutating operations: enqueue (POST /queue-command via queueCommand), poll
(GET /iclock/getrequest.aspx), batch acknowledgment (GET /iclock/devicecmd)
and structured acknowledgment (POST /iclock/devicecmd.aspx).

The JavaScript state is embedded as follows:
* the two global Maps `deviceCommands` and `deviceSeq` become association
  lists with the Map get/set/delete operations;
* command objects become the `Command` structure; timestamps produced by
  `new Date().toISOString()` are abstracted as an explicit `now : String`
  argument to each operation;
* the JavaScript string operations used by the handlers (split on a single
  character, join, trim, Number) are modelled structurally on `String.data`
  so that they compute by kernel reduction;
* each HTTP handler becomes a function from the state and its request fields
  to the response body, the acknowledged command objects it mutated (which
  the JavaScript code reports in its log lines), and the successor state.

A second, lower-level embedding (`RefModel`) keeps the JavaScript object
heap explicit: command objects live on a heap and queues hold references,
so that aliasing between the queue and the value returned by `queueCommand`
can be observed.
-/

set_option linter.unusedVariables false

/-- Status field of a queued command: `"pending" | "sent" | "done"`. -/
inductive CmdStatus : Type
  | pending
  | sent
  | done
deriving DecidableEq, Repr

/-- One command object, as built by `queueCommand` and mutated by the poll
and ack handlers (src/server.js lines 74–97).  Fields that JavaScript adds
only on a transition (`sentAt`, `doneAt`, `deviceAck`) are options. -/
structure Command : Type where
  id : Nat
  command : String
  status : CmdStatus
  queuedAt : String
  sentAt : Option String := none
  doneAt : Option String := none
  deviceAck : Option String := none
deriving DecidableEq, Repr

/-- `Map.get`, on the association-list model of a JavaScript Map. -/
def mapGet {α : Type} : List (String × α) → String → Option α
  | [], _ => none
  | (k, v) :: rest, k' => if k = k' then some v else mapGet rest k'

/-- `Map.set`, on the association-list model of a JavaScript Map. -/
def mapSet {α : Type} : List (String × α) → String → α → List (String × α)
  | [], k, v => [(k, v)]
  | (k0, v0) :: rest, k, v =>
      if k0 = k then (k0, v) :: rest else (k0, v0) :: mapSet rest k v

/-- `Map.delete`, on the association-list model of a JavaScript Map. -/
def mapDelete {α : Type} : List (String × α) → String → List (String × α)
  | [], _ => []
  | (k0, v0) :: rest, k =>
      if k0 = k then mapDelete rest k else (k0, v0) :: mapDelete rest k

/-- The global mutable state of the server: `deviceCommands : Map<SN, Command[]>`
and `deviceSeq : Map<SN, lastId>` (src/server.js lines 76–78). -/
structure ServerState : Type where
  deviceCommands : List (String × List Command)
  deviceSeq : List (String × Nat)
deriving DecidableEq, Repr

/-- The state at process start: both Maps empty. -/
def emptyState : ServerState := ⟨[], []⟩

/-- The command queue a device observes: `deviceCommands.get(sn) || []`. -/
def queueOf (st : ServerState) (sn : String) : List Command :=
  (mapGet st.deviceCommands sn).getD []

/-- The sequencer value for a device: `deviceSeq.get(sn) || 0`. -/
def seqOf (st : ServerState) (sn : String) : Nat :=
  (mapGet st.deviceSeq sn).getD 0

/-- JavaScript `s.split(sep)` for a single-character separator, modelled on
the character list underlying the string. -/
def jsSplit (s : String) (sep : Char) : List String :=
  (s.data.splitOn sep).map String.mk

/-- JavaScript `parts.join(sep)` for a single-character separator. -/
def jsJoin (sep : Char) (l : List String) : String :=
  String.mk (List.intercalate [sep] (l.map String.data))

/-- JavaScript `s.trim()`, restricted to the ASCII whitespace the protocol
can produce. -/
def jsTrim (s : String) : String :=
  String.mk (((s.data.dropWhile Char.isWhitespace).reverse.dropWhile
    Char.isWhitespace).reverse)

/-- Removes one trailing carriage return, so that splitting on a line feed
and then applying this models the JavaScript `split(/\r?\n/)`. -/
def dropTrailingCR (s : String) : String :=
  if s.data.getLast? = some (Char.ofNat 13) then String.mk s.data.dropLast else s

/-- JavaScript `String(infoRaw).split(/\r?\n/)` (src/server.js line 204). -/
def splitLines (s : String) : List String :=
  (jsSplit s '\n').map dropTrailingCR

/-- JavaScript `Number(s)` on the strings this protocol uses as command ids:
the input is whitespace-trimmed, an empty remainder means `0`, a run of
decimal digits means its value, and anything else is NaN (`none`), which
compares unequal to every stored id exactly as NaN does in the
`findIndex` comparisons.  Number syntaxes outside the protocol id space
(signs, fractions, exponents, hex) are not modelled. -/
def jsNumber (s : String) : Option Nat :=
  let t := (jsTrim s).data
  if t = [] then some 0
  else if t.all (fun c => c.isDigit) then
    some (t.foldl (fun acc c => acc * 10 + (c.toNat - 48)) 0)
  else none

/-- JavaScript falsiness of an optional string-valued field: absent or empty. -/
def isFalsy (o : Option String) : Bool :=
  match o with
  | none => true
  | some s => s == ""

/-- JavaScript `a || b` for an optional string `a`: `b` when `a` is absent or
empty, as in `req.query.SN || req.body.SN || ""`. -/
def jsOrElse (a : Option String) (b : String) : String :=
  match a with
  | none => b
  | some s => if s = "" then b else s

/-- `nextCommandIdFor` (src/server.js lines 80–85): read the device's last
id (0 when absent), increment, store, return. -/
def nextCommandIdFor (st : ServerState) (sn : String) : Nat × ServerState :=
  let last := (mapGet st.deviceSeq sn).getD 0
  (last + 1, { st with deviceSeq := mapSet st.deviceSeq sn (last + 1) })

/-- `queueCommand` (src/server.js lines 88–97): create a pending command
with the next id, append it to the device's queue (created when absent),
return the created command.  This value-level embedding returns the
command's value; aliasing is treated in `RefModel.queueCommand`. -/
def queueCommand (st : ServerState) (sn commandText now : String) :
    Command × ServerState :=
  let idSt := nextCommandIdFor st sn
  let cmd : Command :=
    { id := idSt.1, command := commandText, status := CmdStatus.pending,
      queuedAt := now }
  let arr := (mapGet idSt.2.deviceCommands sn).getD []
  (cmd, { idSt.2 with
            deviceCommands := mapSet idSt.2.deviceCommands sn (arr ++ [cmd]) })

/-- GET /iclock/getrequest.aspx (src/server.js lines 157–190): a missing SN
query parameter models as `""` (the JavaScript default `req.query.SN || ""`).
Answers `"OK"` when there is no SN or no pending command; otherwise sends
one `C:<id>:<command>` line per pending command with a trailing line feed
and marks exactly those commands sent, stamping `sentAt`. -/
def getrequest (st : ServerState) (SN now : String) : String × ServerState :=
  if SN = "" then ("OK", st)
  else
    let all := (mapGet st.deviceCommands SN).getD []
    let pendingCmds := all.filter (fun c => c.status == CmdStatus.pending)
    if pendingCmds.length = 0 then ("OK", st)
    else
      let lines := pendingCmds.map (fun c => "C:" ++ toString c.id ++ ":" ++ c.command)
      let all2 := all.map (fun c =>
        if c.status == CmdStatus.pending then
          { c with status := CmdStatus.sent, sentAt := some now }
        else c)
      (jsJoin '\n' lines ++ "\n",
       { st with deviceCommands := mapSet st.deviceCommands SN all2 })

/-- The mark-done mutation both ack handlers apply to a matched command
(src/server.js lines 225–228 and 259–262): set status `"done"`, stamp
`doneAt`, record the device's result text in `deviceAck`. -/
def markDone (c : Command) (ack now : String) : Command :=
  { c with status := CmdStatus.done, doneAt := some now, deviceAck := some ack }

/-- The find–mark–splice step shared by both ack handlers (src/server.js
lines 219–234 and 258–266): find the first command with the given id, mark
it done (stamping `doneAt`, recording `deviceAck`), splice it out.  Returns
the remaining queue and the mutated command object when a match was found. -/
def ackFirst (arr : List Command) (cmdId : Nat) (ack now : String) :
    List Command × Option Command :=
  match arr with
  | [] => ([], none)
  | c :: rest =>
    if c.id = cmdId then
      (rest, some (markDone c ack now))
    else
      let r := ackFirst rest cmdId ack now
      (c :: r.1, r.2)

/-- Processing of one trimmed nonempty line of the batch ack payload
(src/server.js lines 209–235): lines with fewer than three `:`-separated
fields or whose first field is not `"C"` are skipped; otherwise the id is
`Number(parts[1])` and the recorded result is `parts.slice(2).join(":")`. -/
def processAckLine (arr : List Command) (line now : String) :
    List Command × Option Command :=
  let parts := jsSplit line ':'
  if parts.length < 3 ∨ parts.headD "" ≠ "C" then (arr, none)
  else
    let ack := jsJoin ':' (parts.drop 2)
    match jsNumber ((parts.drop 1).headD "") with
    | none => (arr, none)
    | some cmdId => ackFirst arr cmdId ack now

/-- `lines.forEach(...)` of the batch ack handler: fold the lines over the
queue, collecting the acknowledged command objects in order. -/
def processAckLines (arr : List Command) (lines : List String) (now : String) :
    List Command × List Command :=
  match lines with
  | [] => (arr, [])
  | l :: rest =>
    let r := processAckLine arr l now
    let r2 := processAckLines r.1 rest now
    (r2.1, r.2.toList ++ r2.2)

/-- The write-back step both ack handlers end with (src/server.js lines
237–239 and 266–268): `deviceCommands.delete(SN)` when the queue ended
empty, `deviceCommands.set(SN, arr)` otherwise. -/
def queueUpdate (dc : List (String × List Command)) (SN : String)
    (arr : List Command) : List (String × List Command) :=
  if arr.length = 0 then mapDelete dc SN else mapSet dc SN arr

/-- GET /iclock/devicecmd (src/server.js lines 193–243): batch ack.  Missing
SN or info model as `""`.  Returns the response body (always `"OK"`), the
acknowledged command objects, and the successor state: the queue is deleted
from the Map when it ends empty, stored back otherwise. -/
def devicecmdGet (st : ServerState) (SN infoRaw now : String) :
    String × List Command × ServerState :=
  if SN = "" ∨ infoRaw = "" then ("OK", [], st)
  else
    let lines := ((splitLines infoRaw).map jsTrim).filter (fun l => l != "")
    let arr := (mapGet st.deviceCommands SN).getD []
    let r := processAckLines arr lines now
    ("OK", r.2, { st with deviceCommands := queueUpdate st.deviceCommands SN r.1 })

/-- The form-encoded body of POST /iclock/devicecmd.aspx (see below). -/
structure AckBody : Type where
  SN : Option String := none
  ID : Option String := none
  Return : Option String := none
  CMD : Option String := none
deriving DecidableEq, Repr

/-- POST /iclock/devicecmd.aspx (src/server.js lines 245–275): structured
ack.  SN resolves as `req.query.SN || req.body.SN || ""`; the handler
answers `"OK"` unconditionally; it only touches the state when SN, ID and
CMD are all truthy and a command with id `Number(ID)` exists, in which case
that command is marked done with `deviceAck` `"OK"` when `Return === "0"`
and `"ERR"` otherwise, and spliced out (the Map entry being deleted when
the queue ends empty). -/
def devicecmdPost (st : ServerState) (querySN : Option String) (body : AckBody)
    (now : String) : String × Option Command × ServerState :=
  let SN := jsOrElse querySN (jsOrElse body.SN "")
  if SN = "" ∨ isFalsy body.ID ∨ isFalsy body.CMD then ("OK", none, st)
  else
    let arr := (mapGet st.deviceCommands SN).getD []
    let ackText := if body.Return = some "0" then "OK" else "ERR"
    match jsNumber (body.ID.getD "") with
    | none => ("OK", none, st)
    | some cmdId =>
      let r := ackFirst arr cmdId ackText now
      match r.2 with
      | none => ("OK", none, st)
      | some c =>
        ("OK", some c,
         { st with deviceCommands := queueUpdate st.deviceCommands SN r.1 })

/-- One externally triggered mutating request, used to state whole-lifetime
invariants over arbitrary interleavings of the four operations. -/
inductive Op : Type
  | enqueue (sn text now : String)
  | poll (sn now : String)
  | batchAck (sn info now : String)
  | structAck (querySN : Option String) (body : AckBody) (now : String)

/-- The state transition performed by one request. -/
def applyOp (st : ServerState) : Op → ServerState
  | Op.enqueue sn text now => (queueCommand st sn text now).2
  | Op.poll sn now => (getrequest st sn now).2
  | Op.batchAck sn info now => (devicecmdGet st sn info now).2.2
  | Op.structAck q body now => (devicecmdPost st q body now).2.2

namespace RefModel

/-- The server state at the JavaScript object level: command objects live on
a heap (addresses are allocation indices) and device queues hold references
into that heap, exactly as JavaScript arrays hold object references. -/
structure JState : Type where
  heap : List Command
  deviceCommands : List (String × List Nat)
  deviceSeq : List (String × Nat)
deriving DecidableEq, Repr

/-- The state at process start. -/
def empty : JState := ⟨[], [], []⟩

/-- `nextCommandIdFor` (src/server.js lines 80–85) on the object-level state. -/
def nextCommandIdFor (st : JState) (sn : String) : Nat × JState :=
  let last := (mapGet st.deviceSeq sn).getD 0
  (last + 1, { st with deviceSeq := mapSet st.deviceSeq sn (last + 1) })

/-- `queueCommand` (src/server.js lines 88–97) at the JavaScript object
level: `const cmd = {...}` allocates one heap object, `arr.push(cmd)` stores
a reference to it in the queue, and `return cmd` hands the caller the very
same reference. -/
def queueCommand (st : JState) (sn commandText now : String) : Nat × JState :=
  let idSt := nextCommandIdFor st sn
  let cmd : Command :=
    { id := idSt.1, command := commandText, status := CmdStatus.pending,
      queuedAt := now }
  let addr := idSt.2.heap.length
  let arr := (mapGet idSt.2.deviceCommands sn).getD []
  (addr, { idSt.2 with
             heap := idSt.2.heap ++ [cmd],
             deviceCommands := mapSet idSt.2.deviceCommands sn (arr ++ [addr]) })

/-- Overwrite the `command` field of the heap object at an address. -/
def heapWrite : List Command → Nat → String → List Command
  | [], _, _ => []
  | c :: rest, 0, t => { c with command := t } :: rest
  | c :: rest, n + 1, t => c :: heapWrite rest n t

/-- The caller of `queueCommand` mutating the `command` field of the object
it received (`cmd.command = t` in JavaScript). -/
def setCommandText (st : JState) (addr : Nat) (t : String) : JState :=
  { st with heap := heapWrite st.heap addr t }

/-- Dereference a heap address. -/
def commandAt (st : JState) (addr : Nat) : Option Command := st.heap[addr]?

/-- The references held by a device's queue. -/
def queueRefs (st : JState) (sn : String) : List Nat :=
  (mapGet st.deviceCommands sn).getD []

end RefModel

/-! ### Association-list Map lemmas -/

theorem mapGet_mapSet {α : Type} (m : List (String × α)) (k k' : String) (v : α) :
    mapGet (mapSet m k v) k' = if k = k' then some v else mapGet m k' := by
  induction m with
  | nil =>
    by_cases h : k = k' <;> simp [mapGet, mapSet, h]
  | cons p rest ih =>
    obtain ⟨k0, v0⟩ := p
    by_cases h0 : k0 = k
    · subst h0
      by_cases h : k0 = k' <;> simp [mapGet, mapSet, h]
    · by_cases h : k0 = k'
      · subst h
        have hkk : ¬ k = k0 := fun hc => h0 hc.symm
        simp [mapGet, mapSet, h0, hkk]
      · simp [mapGet, mapSet, h0, h, ih]

theorem mapGet_mapDelete {α : Type} (m : List (String × α)) (k k' : String) :
    mapGet (mapDelete m k) k' = if k = k' then none else mapGet m k' := by
  induction m with
  | nil =>
    by_cases h : k = k' <;> simp [mapGet, mapDelete, h]
  | cons p rest ih =>
    obtain ⟨k0, v0⟩ := p
    by_cases h0 : k0 = k
    · subst h0
      by_cases h : k0 = k'
      · subst h
        simpa [mapDelete] using ih
      · simp [mapGet, mapDelete, h, ih]
    · by_cases h : k0 = k'
      · subst h
        have hkk : ¬ k = k0 := fun hc => h0 hc.symm
        simp [mapGet, mapDelete, h0, hkk, ih]
      · simp [mapGet, mapDelete, h0, h, ih]

theorem mapSet_same {α : Type} (m : List (String × α)) (k : String) (v : α)
    (h : mapGet m k = some v) : mapSet m k v = m := by
  induction m with
  | nil => simp [mapGet] at h
  | cons p rest ih =>
    obtain ⟨k0, v0⟩ := p
    by_cases h0 : k0 = k
    · subst h0
      simp [mapGet] at h
      simp [mapSet, h]
    · simp [mapGet, h0] at h
      simp [mapSet, h0, ih h]

theorem mapDelete_absent {α : Type} (m : List (String × α)) (k : String)
    (h : mapGet m k = none) : mapDelete m k = m := by
  induction m with
  | nil => rfl
  | cons p rest ih =>
    obtain ⟨k0, v0⟩ := p
    by_cases h0 : k0 = k
    · subst h0; simp [mapGet] at h
    · simp [mapGet, h0] at h
      simp [mapDelete, h0, ih h]

/-! ### Lemmas about the find–mark–splice step -/

theorem ackFirst_of_no_match (arr : List Command) (cmdId : Nat) (ack now : String)
    (h : ∀ c ∈ arr, c.id ≠ cmdId) : ackFirst arr cmdId ack now = (arr, none) := by
  induction arr with
  | nil => rfl
  | cons c rest ih =>
    have hc : c.id ≠ cmdId := h c (List.mem_cons_self c rest)
    have hrest : ∀ c' ∈ rest, c'.id ≠ cmdId := fun c' hc' => h c' (List.mem_cons_of_mem c hc')
    simp [ackFirst, hc, ih hrest]

theorem ackFirst_first_match (l1 l2 : List Command) (c : Command) (cmdId : Nat)
    (ack now : String) (h1 : ∀ c' ∈ l1, c'.id ≠ cmdId) (hc : c.id = cmdId) :
    ackFirst (l1 ++ c :: l2) cmdId ack now = (l1 ++ l2, some (markDone c ack now)) := by
  induction l1 with
  | nil => simp [ackFirst, hc]
  | cons d rest ih =>
    have hd : d.id ≠ cmdId := h1 d (List.mem_cons_self d rest)
    have hrest : ∀ c' ∈ rest, c'.id ≠ cmdId := fun c' hc' => h1 c' (List.mem_cons_of_mem d hc')
    simp [ackFirst, hd, ih hrest]

theorem ackFirst_fst_subset (arr : List Command) (cmdId : Nat) (ack now : String) :
    ∀ x ∈ (ackFirst arr cmdId ack now).1, x ∈ arr := by
  induction arr with
  | nil => simp [ackFirst]
  | cons c rest ih =>
    intro x hx
    by_cases hc : c.id = cmdId
    · simp [ackFirst, hc] at hx
      exact List.mem_cons_of_mem c hx
    · simp only [ackFirst, if_neg hc] at hx
      rcases List.mem_cons.mp hx with h | h
      · exact h ▸ List.mem_cons_self c rest
      · exact List.mem_cons_of_mem c (ih x h)

theorem ackFirst_ids (arr : List Command) (cmdId : Nat) (ack now : String) :
    (ackFirst arr cmdId ack now).1.map Command.id = (arr.map Command.id).erase cmdId := by
  induction arr with
  | nil => rfl
  | cons c rest ih =>
    by_cases hc : c.id = cmdId
    · simp [ackFirst, hc, List.erase_cons_head]
    · have hbne : (cmdId == c.id) = false := by
        simp [hc]
        exact fun hcontra => hc hcontra.symm
      simp [ackFirst, hc, List.erase_cons_tail, hbne, ih]

theorem ackFirst_isSome (arr : List Command) (cmdId : Nat) (ack now : String) :
    (ackFirst arr cmdId ack now).2.isSome = arr.any (fun c => c.id == cmdId) := by
  induction arr with
  | nil => rfl
  | cons c rest ih =>
    by_cases hc : c.id = cmdId
    · simp [ackFirst, hc]
    · simp [ackFirst, hc, ih]

/-! ### Lemmas about the state after a queue update -/

theorem mapGet_queueUpdate (dc : List (String × List Command)) (SN : String)
    (arr : List Command) (sn : String) :
    (mapGet (queueUpdate dc SN arr) sn).getD []
      = if SN = sn then arr else (mapGet dc sn).getD [] := by
  by_cases h : arr.length = 0
  · have harr : arr = [] := List.length_eq_zero.mp h
    subst harr
    simp [queueUpdate, mapGet_mapDelete]
    by_cases hsn : SN = sn <;> simp [hsn]
  · simp [queueUpdate, h, mapGet_mapSet]
    by_cases hsn : SN = sn <;> simp [hsn]

theorem processAckLine_fst_subset (arr : List Command) (line now : String) :
    ∀ x ∈ (processAckLine arr line now).1, x ∈ arr := by
  intro x hx
  simp only [processAckLine] at hx
  by_cases h : (jsSplit line ':').length < 3 ∨ (jsSplit line ':').headD "" ≠ "C"
  · rw [if_pos h] at hx
    exact hx
  · rw [if_neg h] at hx
    cases hnum : jsNumber ((List.drop 1 (jsSplit line ':')).headD "") with
    | none =>
      rw [hnum] at hx
      exact hx
    | some cmdId =>
      rw [hnum] at hx
      exact ackFirst_fst_subset _ _ _ _ x hx

theorem processAckLines_fst_subset (lines : List String) (arr : List Command)
    (now : String) : ∀ x ∈ (processAckLines arr lines now).1, x ∈ arr := by
  induction lines generalizing arr with
  | nil => simp [processAckLines]
  | cons l rest ih =>
    intro x hx
    simp only [processAckLines] at hx
    exact processAckLine_fst_subset arr l now x (ih (processAckLine arr l now).1 x hx)

/-! ### The handlers leave the id sequencer untouched -/

theorem getrequest_deviceSeq (st : ServerState) (SN now : String) :
    (getrequest st SN now).2.deviceSeq = st.deviceSeq := by
  simp only [getrequest]
  split
  · rfl
  · split <;> rfl

theorem devicecmdGet_deviceSeq (st : ServerState) (SN infoRaw now : String) :
    (devicecmdGet st SN infoRaw now).2.2.deviceSeq = st.deviceSeq := by
  simp only [devicecmdGet]
  split <;> rfl

theorem devicecmdPost_deviceSeq (st : ServerState) (q : Option String)
    (body : AckBody) (now : String) :
    (devicecmdPost st q body now).2.2.deviceSeq = st.deviceSeq := by
  simp only [devicecmdPost]
  repeat' split
  all_goals rfl

theorem seqOf_queueCommand (st : ServerState) (sn text now sn' : String) :
    seqOf (queueCommand st sn text now).2 sn'
      = if sn = sn' then seqOf st sn + 1 else seqOf st sn' := by
  simp only [seqOf, queueCommand, nextCommandIdFor, mapGet_mapSet]
  by_cases h : sn = sn' <;> simp [h]

theorem seqOf_applyOp_mono (st : ServerState) (op : Op) (sn : String) :
    seqOf st sn ≤ seqOf (applyOp st op) sn := by
  cases op with
  | enqueue sn0 text now =>
    simp only [applyOp, seqOf_queueCommand]
    by_cases h : sn0 = sn
    · simp [h]
    · simp [h]
  | poll sn0 now => simp [applyOp, seqOf, getrequest_deviceSeq]
  | batchAck sn0 info now => simp [applyOp, seqOf, devicecmdGet_deviceSeq]
  | structAck q body now => simp [applyOp, seqOf, devicecmdPost_deviceSeq]

theorem seqOf_foldl_mono (ops : List Op) (st : ServerState) (sn : String) :
    seqOf st sn ≤ seqOf (ops.foldl applyOp st) sn := by
  induction ops generalizing st with
  | nil => exact Nat.le_refl _
  | cons op rest ih =>
    exact Nat.le_trans (seqOf_applyOp_mono st op sn) (ih (applyOp st op))

/-! ### Queues after an enqueue and after a poll -/

theorem queueOf_queueCommand (st : ServerState) (sn text now sn' : String) :
    queueOf (queueCommand st sn text now).2 sn'
      = if sn = sn' then
          queueOf st sn ++ [(queueCommand st sn text now).1]
        else queueOf st sn' := by
  simp only [queueOf, queueCommand, nextCommandIdFor, mapGet_mapSet]
  by_cases h : sn = sn' <;> simp [h]

theorem filter_pending_after_mark (all : List Command) (now : String) :
    (all.map (fun c =>
        if c.status == CmdStatus.pending then
          { c with status := CmdStatus.sent, sentAt := some now }
        else c)).filter (fun c => c.status == CmdStatus.pending) = [] := by
  rw [List.filter_eq_nil_iff]
  intro a ha
  obtain ⟨c, hc, rfl⟩ := List.mem_map.mp ha
  by_cases h : c.status = CmdStatus.pending
  · simp [h]
  · simp [h]

/-! ### Behavior of the poll handler -/

theorem getrequest_no_pending (st : ServerState) (SN now : String)
    (h : (queueOf st SN).filter (fun c => c.status == CmdStatus.pending) = []) :
    getrequest st SN now = ("OK", st) := by
  by_cases hSN : SN = ""
  · simp [getrequest, hSN]
  · simp only [getrequest, if_neg hSN]
    simp only [queueOf] at h
    rw [h]
    simp

theorem getrequest_fst (st : ServerState) (SN now : String) (hSN : SN ≠ "")
    (hp : (queueOf st SN).filter (fun c => c.status == CmdStatus.pending) ≠ []) :
    (getrequest st SN now).1
      = jsJoin '\n'
          (((queueOf st SN).filter (fun c => c.status == CmdStatus.pending)).map
            (fun c => "C:" ++ toString c.id ++ ":" ++ c.command)) ++ "\n" := by
  simp only [queueOf] at hp ⊢
  have hlen : ¬ (((mapGet st.deviceCommands SN).getD []).filter
      (fun c => c.status == CmdStatus.pending)).length = 0 := by
    simpa [List.length_eq_zero] using hp
  simp only [getrequest, if_neg hSN]
  rw [if_neg hlen]

theorem getrequest_queueOf (st : ServerState) (SN now : String) (hSN : SN ≠ "")
    (hp : (queueOf st SN).filter (fun c => c.status == CmdStatus.pending) ≠ []) (sn : String) :
    queueOf (getrequest st SN now).2 sn
      = if SN = sn then
          (queueOf st SN).map (fun c =>
            if c.status == CmdStatus.pending then
              { c with status := CmdStatus.sent, sentAt := some now }
            else c)
        else queueOf st sn := by
  simp only [queueOf] at hp ⊢
  have hlen : ¬ (((mapGet st.deviceCommands SN).getD []).filter
      (fun c => c.status == CmdStatus.pending)).length = 0 := by
    simpa [List.length_eq_zero] using hp
  simp only [getrequest, if_neg hSN]
  rw [if_neg hlen]
  simp only [mapGet_mapSet]
  by_cases hsn : SN = sn <;> simp [hsn]

/-! ### Shared concrete states for the witnesses -/

/-- One command `CHECK` queued for device `A1` (gets id 1). -/
def stA : ServerState := (queueCommand emptyState "A1" "CHECK" "t0").2

/-- A second command `DATA QUERY ATTLOG` queued for device `A1` (gets id 2). -/
def stB : ServerState := (queueCommand stA "A1" "DATA QUERY ATTLOG" "t1").2

/-- C1: For every device identifier SN whose queue holds pending commands, a
poll returns exactly those commands in queue (enqueue) order, formatted one
per line as `C:<id>:<payload>` with a trailing line feed, and transitions
exactly the pending commands to sent, stamping `sentAt`, leaving every other
device's queue untouched; a second poll before any ack then answers the
sentinel `"OK"` (zero commands) without changing the state.  When SN is
missing (empty) or unknown to the store, or there is no pending command,
the response is the sentinel `"OK"` and the state is unchanged. -/
theorem poll_delivers_pending_once (st : ServerState) (SN now now2 : String) :
    ((SN = "" ∨ (queueOf st SN).filter (fun c => c.status == CmdStatus.pending) = []) →
       getrequest st SN now = ("OK", st))
    ∧ (SN ≠ "" →
       (queueOf st SN).filter (fun c => c.status == CmdStatus.pending) ≠ [] →
       (getrequest st SN now).1
          = jsJoin '\n'
              (((queueOf st SN).filter (fun c => c.status == CmdStatus.pending)).map
                (fun c => "C:" ++ toString c.id ++ ":" ++ c.command)) ++ "\n"
       ∧ queueOf (getrequest st SN now).2 SN
           = (queueOf st SN).map (fun c =>
               if c.status == CmdStatus.pending then
                 { c with status := CmdStatus.sent, sentAt := some now }
               else c)
       ∧ (∀ sn, sn ≠ SN → queueOf (getrequest st SN now).2 sn = queueOf st sn)
       ∧ getrequest (getrequest st SN now).2 SN now2
           = ("OK", (getrequest st SN now).2)) := by
  constructor
  · intro h
    rcases h with h | h
    · simp [getrequest, h]
    · exact getrequest_no_pending st SN now h
  · intro hSN hp
    have hq := getrequest_queueOf st SN now hSN hp
    refine ⟨getrequest_fst st SN now hSN hp, ?_, ?_, ?_⟩
    · simpa using hq SN
    · intro sn hsn
      have := hq sn
      rw [if_neg (fun hc => hsn hc.symm)] at this
      exact this
    · apply getrequest_no_pending
      have h2 : queueOf (getrequest st SN now).2 SN
          = (queueOf st SN).map (fun c =>
              if c.status == CmdStatus.pending then
                { c with status := CmdStatus.sent, sentAt := some now }
              else c) := by simpa using hq SN
      rw [h2]
      exact filter_pending_after_mark _ _

/-- Witness for C1 at a concrete state: device `A1` with two pending
commands, then a second poll. -/
theorem poll_delivers_pending_once_witness :
    (getrequest stB "A1" "t2").1 = "C:1:CHECK\nC:2:DATA QUERY ATTLOG\n"
    ∧ queueOf (getrequest stB "A1" "t2").2 "A1"
        = (queueOf stB "A1").map (fun c =>
            if c.status == CmdStatus.pending then
              { c with status := CmdStatus.sent, sentAt := some "t2" }
            else c)
    ∧ getrequest (getrequest stB "A1" "t2").2 "A1" "t3"
        = ("OK", (getrequest stB "A1" "t2").2)
    ∧ getrequest stB "" "t2" = ("OK", stB) := by
  have h := poll_delivers_pending_once stB "A1" "t2" "t3"
  have h2 := h.2 (by decide) (by decide)
  refine ⟨?_, h2.2.1, h2.2.2.2, (poll_delivers_pending_once stB "" "t2" "t3").1 (Or.inl rfl)⟩
  rw [h2.1]
  decide

/-! ### C2: the value returned by queueCommand aliases the queue entry -/

theorem getElem_append_singleton {α : Type} (l : List α) (a : α) :
    (l ++ [a])[l.length]? = some a := by
  induction l with
  | nil => rfl
  | cons x rest ih => simp [ih]

theorem heapWrite_append_length (l : List Command) (c : Command) (t : String) :
    RefModel.heapWrite (l ++ [c]) l.length t = l ++ [{ c with command := t }] := by
  induction l with
  | nil => rfl
  | cons x rest ih => simp [RefModel.heapWrite, ih]

/-- The state after queueing `CHECK` for device `A1` in the object-level model. -/
def jstA : RefModel.JState := (RefModel.queueCommand RefModel.empty "A1" "CHECK" "t0").2

/-- The reference `queueCommand` returned for that command. -/
def addrA : Nat := (RefModel.queueCommand RefModel.empty "A1" "CHECK" "t0").1

/-- Counterexample to C2 as stated: the reference returned by `queueCommand`
is exactly the reference stored in device `A1`'s queue, and mutating the
returned object (`cmd.command = "EVIL"`) changes the stored command from
`"CHECK"` to `"EVIL"` — the returned value is a live reference, not a copy. -/
theorem enqueue_copy_claim_cex :
    RefModel.queueRefs jstA "A1" = [addrA]
    ∧ (RefModel.commandAt jstA addrA).map Command.command = some "CHECK"
    ∧ ((RefModel.commandAt (RefModel.setCommandText jstA addrA "EVIL") addrA).map
        Command.command) = some "EVIL"
    ∧ RefModel.setCommandText jstA addrA "EVIL" ≠ jstA := by decide

/-- C2 amended: `queueCommand` returns the created Command as a live
reference to the object stored in the device's queue — the queue's new last
entry is the very reference returned, the object it denotes is the created
command, and mutating the `command` field through the returned reference is
visible at the stored reference. -/
theorem enqueue_returns_alias (st : RefModel.JState) (sn text now t2 : String) :
    RefModel.queueRefs (RefModel.queueCommand st sn text now).2 sn
      = RefModel.queueRefs st sn ++ [(RefModel.queueCommand st sn text now).1]
    ∧ RefModel.commandAt (RefModel.queueCommand st sn text now).2
        (RefModel.queueCommand st sn text now).1
        = some { id := (RefModel.nextCommandIdFor st sn).1, command := text,
                 status := CmdStatus.pending, queuedAt := now }
    ∧ RefModel.commandAt
        (RefModel.setCommandText (RefModel.queueCommand st sn text now).2
          (RefModel.queueCommand st sn text now).1 t2)
        (RefModel.queueCommand st sn text now).1
        = some { id := (RefModel.nextCommandIdFor st sn).1, command := t2,
                 status := CmdStatus.pending, queuedAt := now } := by
  refine ⟨?_, ?_, ?_⟩
  · simp only [RefModel.queueCommand, RefModel.nextCommandIdFor, RefModel.queueRefs,
      mapGet_mapSet]
    simp
  · simp only [RefModel.queueCommand, RefModel.nextCommandIdFor, RefModel.commandAt]
    exact getElem_append_singleton _ _
  · simp only [RefModel.queueCommand, RefModel.nextCommandIdFor, RefModel.commandAt,
      RefModel.setCommandText]
    rw [heapWrite_append_length]
    exact getElem_append_singleton _ _

/-! ### C3: which fields the structured ack actually requires -/

/-- A structured ack for the queued command id 1 with the `Return` field
missing and every other field present. -/
def bodyMissingReturn : AckBody :=
  { SN := none, ID := some "1", Return := none, CMD := some "CHECK" }

/-- Counterexample to C3 as stated: a structured ack whose `Return` field
(the named return code) is missing is not treated as "nothing to do" — it is
processed as an acknowledgment: against `stA` (device `A1` holding command
id 1) it removes the command from the queue, changing the state, and records
`deviceAck = "ERR"`. -/
theorem structured_ack_missing_return_cex :
    bodyMissingReturn.Return = none
    ∧ (devicecmdPost stA (some "A1") bodyMissingReturn "t9").1 = "OK"
    ∧ (devicecmdPost stA (some "A1") bodyMissingReturn "t9").2.2 ≠ stA
    ∧ queueOf (devicecmdPost stA (some "A1") bodyMissingReturn "t9").2.2 "A1" = []
    ∧ queueOf stA "A1" ≠ []
    ∧ ((devicecmdPost stA (some "A1") bodyMissingReturn "t9").2.1.map
        Command.deviceAck) = some (some "ERR") := by decide

/-- C3 amended: the structured ack requires only the device identifier, the
numeric command id and the command text — a request missing (or carrying an
empty) one of those three is answered with the sentinel `"OK"` and leaves
the state unchanged, exactly like an acknowledgment of an unmatched id.  The
named return code is not required: a request missing `Return` is processed
identically to one carrying a non-`"0"` return code. -/
theorem structured_ack_required_fields (st : ServerState) (q : Option String)
    (body : AckBody) (now : String) :
    ((jsOrElse q (jsOrElse body.SN "") = "" ∨ isFalsy body.ID = true
        ∨ isFalsy body.CMD = true) →
       devicecmdPost st q body now = ("OK", none, st))
    ∧ devicecmdPost st q { body with Return := none } now
        = devicecmdPost st q { body with Return := some "1" } now := by
  constructor
  · intro h
    simp only [devicecmdPost]
    rw [if_pos h]
  · simp only [devicecmdPost]
    simp

/-- Witness for C3's amended theorem: a request missing its id is a no-op on
`stA`, and a request missing `Return` coincides with one carrying `"1"`. -/
theorem structured_ack_required_fields_witness :
    devicecmdPost stA (some "A1")
        { SN := none, ID := none, Return := some "0", CMD := some "CHECK" } "t9"
      = ("OK", none, stA)
    ∧ devicecmdPost stA (some "A1")
        { SN := none, ID := some "1", Return := none, CMD := some "CHECK" } "t9"
      = devicecmdPost stA (some "A1")
        { SN := none, ID := some "1", Return := some "1", CMD := some "CHECK" } "t9" := by
  refine ⟨(structured_ack_required_fields stA (some "A1")
      { SN := none, ID := none, Return := some "0", CMD := some "CHECK" } "t9").1
      (by decide),
    (structured_ack_required_fields stA (some "A1")
      { SN := none, ID := some "1", Return := some "0", CMD := some "CHECK" } "t9").2⟩

/-! ### C10: the structured ack never reads the command text -/

/-- C10: the structured ack matches a command by device identifier and
numeric id alone — two requests identical except for the value of their
(present, non-empty) `CMD` field produce identical responses, identical
acknowledged commands and identical queue states; the command text never
influences which command is marked done and removed. -/
theorem ack_ignores_cmd_text (st : ServerState) (q : Option String) (body : AckBody)
    (t1 t2 now : String) (h1 : t1 ≠ "") (h2 : t2 ≠ "") :
    devicecmdPost st q { body with CMD := some t1 } now
      = devicecmdPost st q { body with CMD := some t2 } now := by
  have e1 : isFalsy (some t1) = false := by simp [isFalsy, h1]
  have e2 : isFalsy (some t2) = false := by simp [isFalsy, h2]
  simp only [devicecmdPost]
  simp [e1, e2]

/-- Witness for C10: acknowledging id 1 on `stA` with command text `CHECK`
or `BOGUS` yields the same response and state. -/
theorem ack_ignores_cmd_text_witness :
    devicecmdPost stA (some "A1")
        { SN := none, ID := some "1", Return := some "0", CMD := some "CHECK" } "t9"
      = devicecmdPost stA (some "A1")
        { SN := none, ID := some "1", Return := some "0", CMD := some "BOGUS" } "t9" :=
  ack_ignores_cmd_text stA (some "A1")
    { SN := none, ID := some "1", Return := some "0", CMD := none }
    "CHECK" "BOGUS" "t9" (by decide) (by decide)

/-! ### The structured ack handler on matched and unmatched ids -/

theorem ackFirst_acked_fields (arr : List Command) (cmdId : Nat) (ack now : String)
    (c : Command) (h : (ackFirst arr cmdId ack now).2 = some c) :
    c.status = CmdStatus.done ∧ c.doneAt = some now ∧ c.deviceAck = some ack
      ∧ c.id = cmdId := by
  induction arr with
  | nil => simp [ackFirst] at h
  | cons c0 rest ih =>
    by_cases hc : c0.id = cmdId
    · simp only [ackFirst, if_pos hc] at h
      obtain rfl := Option.some_injective _ h.symm
      simp [markDone, hc]
    · simp only [ackFirst, if_neg hc] at h
      exact ih h

theorem ackFirst_isSome_of_mem (arr : List Command) (cmdId : Nat) (ack now : String)
    (h : cmdId ∈ arr.map Command.id) : ((ackFirst arr cmdId ack now).2).isSome := by
  rw [ackFirst_isSome]
  rw [List.any_eq_true]
  obtain ⟨c, hc, hid⟩ := List.mem_map.mp h
  exact ⟨c, hc, by simp [hid]⟩

theorem jsOrElse_some (SN b : String) (hSN : SN ≠ "") : jsOrElse (some SN) b = SN := by
  simp [jsOrElse, hSN]

theorem devicecmdPost_no_match (st : ServerState) (q : Option String) (body : AckBody)
    (now : String)
    (h : ∀ c ∈ queueOf st (jsOrElse q (jsOrElse body.SN "")),
         jsNumber (body.ID.getD "") ≠ some c.id) :
    devicecmdPost st q body now = ("OK", none, st) := by
  simp only [devicecmdPost]
  split
  · rfl
  · cases hnum : jsNumber (body.ID.getD "") with
    | none => rfl
    | some cmdId =>
      have hno : ∀ c ∈ queueOf st (jsOrElse q (jsOrElse body.SN "")), c.id ≠ cmdId := by
        intro c hc he
        exact h c hc (by rw [hnum, he])
      simp only [queueOf] at hno
      simp only [ackFirst_of_no_match _ _ _ _ hno]

theorem devicecmdPost_matched (st : ServerState) (SN : String) (body : AckBody)
    (now : String) (cmdId : Nat) (c : Command)
    (hSN : SN ≠ "") (hID : isFalsy body.ID = false) (hCMD : isFalsy body.CMD = false)
    (hnum : jsNumber (body.ID.getD "") = some cmdId)
    (hsome : (ackFirst (queueOf st SN) cmdId
        (if body.Return = some "0" then "OK" else "ERR") now).2 = some c) :
    devicecmdPost st (some SN) body now
      = ("OK", some c,
         { st with deviceCommands := (queueUpdate st.deviceCommands SN
             (ackFirst (queueOf st SN) cmdId
               (if body.Return = some "0" then "OK" else "ERR") now).1) }) := by
  simp only [devicecmdPost, jsOrElse_some SN _ hSN]
  rw [if_neg (by simp [hSN, hID, hCMD]), hnum]
  simp only [queueOf] at hsome ⊢
  simp only [hsome]

/-- The first command queued in `stA` (id 1, `CHECK`, pending). -/
def cmd1 : Command := (queueCommand emptyState "A1" "CHECK" "t0").1

/-- C5: if a command with the given id exists in the device's queue —
regardless of its current status, since the decomposition commands are
arbitrary (sent or still pending, never delivered) — the find–mark–splice
operation shared by both ack handlers marks the first such command done
(stamping `doneAt`), records the supplied result text in `deviceAck`,
removes it from the queue, and reports whether a match was found; through
the structured handler the acknowledged command is returned and the evicted
queue is the one stored. -/
theorem ack_matches_by_id_any_status (l1 l2 : List Command) (c : Command)
    (cmdId : Nat) (ack now : String)
    (h1 : ∀ c' ∈ l1, c'.id ≠ cmdId) (hc : c.id = cmdId) :
    ackFirst (l1 ++ c :: l2) cmdId ack now = (l1 ++ l2, some (markDone c ack now))
    ∧ (∀ arr : List Command,
        ((ackFirst arr cmdId ack now).2).isSome = arr.any (fun x => x.id == cmdId))
    ∧ (∀ (st : ServerState) (SN : String) (body : AckBody),
        SN ≠ "" → isFalsy body.ID = false → isFalsy body.CMD = false →
        jsNumber (body.ID.getD "") = some cmdId →
        queueOf st SN = l1 ++ c :: l2 →
        ack = (if body.Return = some "0" then "OK" else "ERR") →
        (devicecmdPost st (some SN) body now).2.1 = some (markDone c ack now)
        ∧ queueOf (devicecmdPost st (some SN) body now).2.2 SN = l1 ++ l2) := by
  have hmain := ackFirst_first_match l1 l2 c cmdId ack now h1 hc
  refine ⟨hmain, fun arr => ackFirst_isSome _ _ _ _, ?_⟩
  intro st SN body hSN hID hCMD hnum hq hack
  have hsome : (ackFirst (queueOf st SN) cmdId
      (if body.Return = some "0" then "OK" else "ERR") now).2
      = some (markDone c ack now) := by
    rw [hq, ← hack, hmain]
  have hpost := devicecmdPost_matched st SN body now cmdId _ hSN hID hCMD hnum hsome
  rw [hpost]
  refine ⟨rfl, ?_⟩
  simp only [queueOf, mapGet_queueUpdate, if_pos rfl]
  simp only [queueOf] at hq
  rw [hq, ← hack, hmain]
  simp

/-- Witness for C5: acknowledging the single queued command of `stA`
(id 1, status pending — never delivered) with result `"OK"`. -/
theorem ack_matches_by_id_any_status_witness :
    ackFirst ([] ++ cmd1 :: []) 1 "OK" "t9"
      = ([] ++ [], some (markDone cmd1 "OK" "t9"))
    ∧ (devicecmdPost stA (some "A1")
        { SN := none, ID := some "1", Return := some "0", CMD := some "CHECK" }
        "t9").2.1
      = some (markDone cmd1 "OK" "t9")
    ∧ queueOf (devicecmdPost stA (some "A1")
        { SN := none, ID := some "1", Return := some "0", CMD := some "CHECK" }
        "t9").2.2 "A1" = [] ++ [] := by
  have h := ack_matches_by_id_any_status [] [] cmd1 1 "OK" "t9" (by simp) (by decide)
  have h3 := h.2.2 stA "A1"
      { SN := none, ID := some "1", Return := some "0", CMD := some "CHECK" }
      (by decide) (by decide) (by decide) (by decide) (by decide) (by decide)
  exact ⟨h.1, h3.1, h3.2⟩

/-- C7: in the structured ack, a return-code field equal to `"0"` sets the
acknowledged command's `deviceAck` to `"OK"`, and any other return-code
value sets it to `"ERR"`. -/
theorem return_code_to_deviceAck (st : ServerState) (SN : String) (body : AckBody)
    (now : String) (cmdId : Nat) (hSN : SN ≠ "")
    (hID : isFalsy body.ID = false) (hCMD : isFalsy body.CMD = false)
    (hnum : jsNumber (body.ID.getD "") = some cmdId)
    (hmem : cmdId ∈ (queueOf st SN).map Command.id) :
    ∃ c, (devicecmdPost st (some SN) body now).2.1 = some c
      ∧ c.deviceAck = some (if body.Return = some "0" then "OK" else "ERR")
      ∧ (body.Return = some "0" → c.deviceAck = some "OK")
      ∧ (body.Return ≠ some "0" → c.deviceAck = some "ERR") := by
  have hsome := ackFirst_isSome_of_mem (queueOf st SN) cmdId
      (if body.Return = some "0" then "OK" else "ERR") now hmem
  obtain ⟨c, hc⟩ := Option.isSome_iff_exists.mp hsome
  have hfields := ackFirst_acked_fields _ _ _ _ c hc
  have hpost := devicecmdPost_matched st SN body now cmdId c hSN hID hCMD hnum hc
  refine ⟨c, by rw [hpost], hfields.2.2.1, ?_, ?_⟩
  · intro h0
    rw [hfields.2.2.1, if_pos h0]
  · intro h0
    rw [hfields.2.2.1, if_neg h0]

/-- Witness for C7: return code `"0"` yields `deviceAck = "OK"` on `stA`;
return code `"5"` yields `deviceAck = "ERR"` on `stB`. -/
theorem return_code_to_deviceAck_witness :
    (∃ c, (devicecmdPost stA (some "A1")
        { SN := none, ID := some "1", Return := some "0", CMD := some "CHECK" }
        "t9").2.1 = some c
      ∧ c.deviceAck = some (if (some "0" : Option String) = some "0" then "OK" else "ERR")
      ∧ ((some "0" : Option String) = some "0" → c.deviceAck = some "OK")
      ∧ ((some "0" : Option String) ≠ some "0" → c.deviceAck = some "ERR"))
    ∧ (∃ c, (devicecmdPost stB (some "A1")
        { SN := none, ID := some "2", Return := some "5", CMD := some "X" }
        "t9").2.1 = some c
      ∧ c.deviceAck = some (if (some "5" : Option String) = some "0" then "OK" else "ERR")
      ∧ ((some "5" : Option String) = some "0" → c.deviceAck = some "OK")
      ∧ ((some "5" : Option String) ≠ some "0" → c.deviceAck = some "ERR")) :=
  ⟨return_code_to_deviceAck stA "A1"
      { SN := none, ID := some "1", Return := some "0", CMD := some "CHECK" }
      "t9" 1 (by decide) (by decide) (by decide) (by decide) (by decide),
   return_code_to_deviceAck stB "A1"
      { SN := none, ID := some "2", Return := some "5", CMD := some "X" }
      "t9" 2 (by decide) (by decide) (by decide) (by decide) (by decide)⟩

/-! ### Behavior of the batch ack handler on single lines -/

theorem processAckLine_malformed (arr : List Command) (line now : String)
    (h : (jsSplit line ':').length < 3 ∨ (jsSplit line ':').headD "" ≠ "C") :
    processAckLine arr line now = (arr, none) := by
  simp only [processAckLine]
  rw [if_pos h]

theorem processAckLine_wellformed (arr : List Command) (line now idStr : String)
    (rest : List String) (cmdId : Nat)
    (hsplit : jsSplit line ':' = "C" :: idStr :: rest) (hrest : rest ≠ [])
    (hnum : jsNumber idStr = some cmdId) :
    processAckLine arr line now = ackFirst arr cmdId (jsJoin ':' rest) now := by
  obtain ⟨a, t, rfl⟩ : ∃ a t, rest = a :: t := by
    rcases rest with _ | ⟨a, t⟩
    · exact absurd rfl hrest
    · exact ⟨a, t, rfl⟩
  simp only [processAckLine, hsplit]
  have hcond : ¬(("C" :: idStr :: a :: t).length < 3
      ∨ ("C" :: idStr :: a :: t).headD "" ≠ "C") := by
    push_neg
    refine ⟨?_, rfl⟩
    simp only [List.length_cons]
    omega
  rw [if_neg hcond]
  simp [hnum]

theorem devicecmdGet_eq (st : ServerState) (SN infoRaw now : String)
    (hSN : SN ≠ "") (hinfo : infoRaw ≠ "") :
    devicecmdGet st SN infoRaw now
      = ("OK",
         (processAckLines (queueOf st SN)
           (((splitLines infoRaw).map jsTrim).filter (fun l => l != "")) now).2,
         { st with deviceCommands := (queueUpdate st.deviceCommands SN
             (processAckLines (queueOf st SN)
               (((splitLines infoRaw).map jsTrim).filter (fun l => l != "")) now).1) }) := by
  simp only [devicecmdGet, queueOf]
  rw [if_neg (by simp [hSN, hinfo])]

/-- C4: both acknowledgment forms are idempotent.  Structured form: a
request whose id matches no command of the addressed queue (already evicted
or never created) is an exact no-op answered with the sentinel `"OK"`.
Batch form: a well-formed line whose id matches no command leaves every
queue and the sequencer unchanged, acknowledges nothing, and the response is
still `"OK"`.  Acknowledging the same id twice through the structured form:
the first call removes the command (sentinel `"OK"`), after which the id is
no longer present, and the second identical call is a no-op returning the
same sentinel and leaving the state unchanged. -/
theorem ack_idempotent (st : ServerState) (SN : String) :
    (∀ (body : AckBody) (now : String),
       (∀ c ∈ queueOf st (jsOrElse (some SN) (jsOrElse body.SN "")),
          jsNumber (body.ID.getD "") ≠ some c.id) →
       devicecmdPost st (some SN) body now = ("OK", none, st))
    ∧ (∀ (info line idStr now : String) (rest : List String) (cmdId : Nat),
       SN ≠ "" → info ≠ "" →
       ((splitLines info).map jsTrim).filter (fun l => l != "") = [line] →
       jsSplit line ':' = "C" :: idStr :: rest → rest ≠ [] →
       jsNumber idStr = some cmdId →
       cmdId ∉ (queueOf st SN).map Command.id →
       (devicecmdGet st SN info now).1 = "OK"
       ∧ (devicecmdGet st SN info now).2.1 = []
       ∧ (∀ sn, queueOf (devicecmdGet st SN info now).2.2 sn = queueOf st sn)
       ∧ (devicecmdGet st SN info now).2.2.deviceSeq = st.deviceSeq)
    ∧ (∀ (body : AckBody) (now now2 : String) (cmdId : Nat),
       SN ≠ "" → isFalsy body.ID = false → isFalsy body.CMD = false →
       jsNumber (body.ID.getD "") = some cmdId →
       cmdId ∈ (queueOf st SN).map Command.id →
       ((queueOf st SN).map Command.id).Nodup →
       (devicecmdPost st (some SN) body now).1 = "OK"
       ∧ ((devicecmdPost st (some SN) body now).2.1).isSome = true
       ∧ cmdId ∉ (queueOf (devicecmdPost st (some SN) body now).2.2 SN).map Command.id
       ∧ devicecmdPost (devicecmdPost st (some SN) body now).2.2 (some SN) body now2
           = ("OK", none, (devicecmdPost st (some SN) body now).2.2)) := by
  refine ⟨fun body now h => devicecmdPost_no_match st (some SN) body now h, ?_, ?_⟩
  · intro info line idStr now rest cmdId hSN hinfo hlines hsplit hrest hnum hno
    have hnomatch : ∀ c ∈ queueOf st SN, c.id ≠ cmdId := by
      intro c hc he
      exact hno (List.mem_map.mpr ⟨c, hc, he⟩)
    have hline := processAckLine_wellformed (queueOf st SN) line now idStr rest
        cmdId hsplit hrest hnum
    have hack := ackFirst_of_no_match (queueOf st SN) cmdId (jsJoin ':' rest) now hnomatch
    have hget := devicecmdGet_eq st SN info now hSN hinfo
    rw [hlines] at hget
    have hpl : processAckLines (queueOf st SN) [line] now = (queueOf st SN, []) := by
      simp [processAckLines, hline, hack]
    rw [hpl] at hget
    rw [hget]
    refine ⟨rfl, rfl, ?_, rfl⟩
    intro sn
    simp only [queueOf, mapGet_queueUpdate]
    by_cases hsn : SN = sn
    · subst hsn
      simp
    · simp [hsn]
  · intro body now now2 cmdId hSN hID hCMD hnum hmem hnodup
    have hsome := ackFirst_isSome_of_mem (queueOf st SN) cmdId
        (if body.Return = some "0" then "OK" else "ERR") now hmem
    obtain ⟨c, hc⟩ := Option.isSome_iff_exists.mp hsome
    have hpost := devicecmdPost_matched st SN body now cmdId c hSN hID hCMD hnum hc
    have hqueue : queueOf (devicecmdPost st (some SN) body now).2.2 SN
        = (ackFirst (queueOf st SN) cmdId
            (if body.Return = some "0" then "OK" else "ERR") now).1 := by
      rw [hpost]
      simp only [queueOf, mapGet_queueUpdate, if_pos rfl]
      simp
    have hnotmem : cmdId ∉
        (queueOf (devicecmdPost st (some SN) body now).2.2 SN).map Command.id := by
      rw [hqueue, ackFirst_ids]
      intro hmem2
      exact ((List.Nodup.mem_erase_iff hnodup).mp hmem2).1 rfl
    refine ⟨by rw [hpost], by rw [hpost]; rfl, hnotmem, ?_⟩
    apply devicecmdPost_no_match
    intro c2 hc2 he
    rw [jsOrElse_some _ _ hSN] at hc2
    rw [hnum] at he
    have hid : cmdId = c2.id := by
      exact Option.some_injective _ he
    exact hnotmem (hid ▸ List.mem_map.mpr ⟨c2, hc2, rfl⟩)

/-- Witness for C4: on `stA` (device `A1`, one command with id 1), a
structured ack for the absent id 9 is a no-op; a batch ack line `C:9:OK`
acknowledges nothing and preserves the queue; acknowledging id 1 twice
removes it once and the second call is a no-op. -/
theorem ack_idempotent_witness :
    devicecmdPost stA (some "A1")
        { SN := none, ID := some "9", Return := some "0", CMD := some "X" } "t9"
      = ("OK", none, stA)
    ∧ (devicecmdGet stA "A1" "C:9:OK" "t9").1 = "OK"
    ∧ (devicecmdGet stA "A1" "C:9:OK" "t9").2.1 = []
    ∧ queueOf (devicecmdGet stA "A1" "C:9:OK" "t9").2.2 "A1" = queueOf stA "A1"
    ∧ (devicecmdPost stA (some "A1")
        { SN := none, ID := some "1", Return := some "0", CMD := some "CHECK" }
        "t9").1 = "OK"
    ∧ (1 : Nat) ∉ (queueOf (devicecmdPost stA (some "A1")
        { SN := none, ID := some "1", Return := some "0", CMD := some "CHECK" }
        "t9").2.2 "A1").map Command.id
    ∧ devicecmdPost (devicecmdPost stA (some "A1")
        { SN := none, ID := some "1", Return := some "0", CMD := some "CHECK" }
        "t9").2.2 (some "A1")
        { SN := none, ID := some "1", Return := some "0", CMD := some "CHECK" } "t10"
      = ("OK", none, (devicecmdPost stA (some "A1")
          { SN := none, ID := some "1", Return := some "0", CMD := some "CHECK" }
          "t9").2.2) := by
  have hA := (ack_idempotent stA "A1").1
      { SN := none, ID := some "9", Return := some "0", CMD := some "X" } "t9"
      (by decide)
  have hB := (ack_idempotent stA "A1").2.1 "C:9:OK" "C:9:OK" "9" "t9" ["OK"] 9
      (by decide) (by decide) (by decide) (by decide) (by decide) (by decide) (by decide)
  have hC := (ack_idempotent stA "A1").2.2
      { SN := none, ID := some "1", Return := some "0", CMD := some "CHECK" }
      "t9" "t10" 1 (by decide) (by decide) (by decide) (by decide) (by decide) (by decide)
  exact ⟨hA, hB.1, hB.2.1, hB.2.2.1 "A1", hC.1, hC.2.2.1, hC.2.2.2⟩

/-! ### C6: malformed lines are skipped; result text survives verbatim -/

theorem intercalate_cons_cons {α : Type} (sep x y : List α) (zs : List (List α)) :
    List.intercalate sep (x :: y :: zs) = x ++ sep ++ List.intercalate sep (y :: zs) := by
  simp [List.intercalate, List.intersperse_cons_cons, List.append_assoc]

theorem jsSplit_verbatim (line idStr : String) (rest : List String)
    (hsplit : jsSplit line ':' = "C" :: idStr :: rest) (hrest : rest ≠ []) :
    "C:" ++ idStr ++ ":" ++ jsJoin ':' rest = line := by
  obtain ⟨z, zs, rfl⟩ : ∃ z zs, rest = z :: zs := by
    rcases rest with _ | ⟨z, zs⟩
    · exact absurd rfl hrest
    · exact ⟨z, zs, rfl⟩
  have hdata : line.data.splitOn ':' = ['C'] :: idStr.data :: (z :: zs).map String.data := by
    have h2 := congrArg (List.map String.data) hsplit
    simp only [jsSplit, List.map_map, List.map_cons] at h2
    have h3 : ∀ l : List (List Char), List.map (String.data ∘ String.mk) l = l := by
      intro l
      induction l with
      | nil => rfl
      | cons a t ih => simp [ih, Function.comp]
    rw [h3] at h2
    exact h2
  have hround : [':'].intercalate (line.data.splitOn ':') = line.data :=
    List.intercalate_splitOn line.data ':'
  rw [hdata] at hround
  have hC : ("C:" : String).data = ['C', ':'] := rfl
  have hcolon : (":" : String).data = [':'] := rfl
  have hj : (jsJoin ':' (z :: zs)).data = [':'].intercalate ((z :: zs).map String.data) := rfl
  apply String.ext
  simp only [String.data_append, hC, hcolon, hj]
  rw [← hround, intercalate_cons_cons]
  simp only [List.map_cons]
  rw [intercalate_cons_cons]
  simp

/-- C6: in a batch acknowledgment, a line with fewer than three
`:`-separated fields or whose first field is not the marker `"C"` is skipped
without aborting the batch: a following well-formed line in the same request
is still processed exactly as if it stood alone (its command found, marked
done and removed from the stored queue), and the response is still the
sentinel `"OK"`; for the well-formed line the recorded `deviceAck` is the
whole text after the second separator — joining the remaining fields with
the separator reconstructs the original line verbatim, so embedded
separator characters are preserved. -/
theorem batch_ack_skips_malformed (st : ServerState) (SN m v info now idStr : String)
    (rest : List String) (cmdId : Nat)
    (hSN : SN ≠ "") (hinfo : info ≠ "")
    (hlines : ((splitLines info).map jsTrim).filter (fun l => l != "") = [m, v])
    (hmal : (jsSplit m ':').length < 3 ∨ (jsSplit m ':').headD "" ≠ "C")
    (hsplit : jsSplit v ':' = "C" :: idStr :: rest) (hrest : rest ≠ [])
    (hnum : jsNumber idStr = some cmdId) :
    processAckLine (queueOf st SN) m now = (queueOf st SN, none)
    ∧ (devicecmdGet st SN info now).1 = "OK"
    ∧ (devicecmdGet st SN info now).2.1
        = ((ackFirst (queueOf st SN) cmdId (jsJoin ':' rest) now).2).toList
    ∧ queueOf (devicecmdGet st SN info now).2.2 SN
        = (ackFirst (queueOf st SN) cmdId (jsJoin ':' rest) now).1
    ∧ (∀ c, (ackFirst (queueOf st SN) cmdId (jsJoin ':' rest) now).2 = some c →
        c.status = CmdStatus.done ∧ c.deviceAck = some (jsJoin ':' rest))
    ∧ "C:" ++ idStr ++ ":" ++ jsJoin ':' rest = v := by
  have hm := processAckLine_malformed (queueOf st SN) m now hmal
  have hv := processAckLine_wellformed (queueOf st SN) v now idStr rest cmdId
      hsplit hrest hnum
  have hget := devicecmdGet_eq st SN info now hSN hinfo
  rw [hlines] at hget
  have hpl : processAckLines (queueOf st SN) [m, v] now
      = ((ackFirst (queueOf st SN) cmdId (jsJoin ':' rest) now).1,
         ((ackFirst (queueOf st SN) cmdId (jsJoin ':' rest) now).2).toList) := by
    simp [processAckLines, hm, hv]
  rw [hpl] at hget
  refine ⟨hm, by rw [hget], by rw [hget], ?_, ?_,
    jsSplit_verbatim v idStr rest hsplit hrest⟩
  · rw [hget]
    simp only [queueOf, mapGet_queueUpdate, if_pos rfl]
    simp
  · intro c hc
    have hf := ackFirst_acked_fields _ _ _ _ c hc
    exact ⟨hf.1, hf.2.2.1⟩

/-- Witness for C6: on `stA`, the batch `"X:1\nC:1:O:K"` carries a
malformed line and a well-formed line whose free-form result `"O:K"` itself
contains the separator; the malformed line is skipped, command 1 is still
acknowledged and removed, and the result text is recorded verbatim. -/
theorem batch_ack_skips_malformed_witness :
    processAckLine (queueOf stA "A1") "X:1" "t9" = (queueOf stA "A1", none)
    ∧ (devicecmdGet stA "A1" "X:1\nC:1:O:K" "t9").1 = "OK"
    ∧ (devicecmdGet stA "A1" "X:1\nC:1:O:K" "t9").2.1
        = ((ackFirst (queueOf stA "A1") 1 (jsJoin ':' ["O", "K"]) "t9").2).toList
    ∧ queueOf (devicecmdGet stA "A1" "X:1\nC:1:O:K" "t9").2.2 "A1"
        = (ackFirst (queueOf stA "A1") 1 (jsJoin ':' ["O", "K"]) "t9").1
    ∧ (markDone cmd1 "O:K" "t9").status = CmdStatus.done
    ∧ (markDone cmd1 "O:K" "t9").deviceAck = some (jsJoin ':' ["O", "K"])
    ∧ "C:" ++ "1" ++ ":" ++ jsJoin ':' ["O", "K"] = "C:1:O:K" := by
  have h := batch_ack_skips_malformed stA "A1" "X:1" "C:1:O:K" "X:1\nC:1:O:K" "t9"
      "1" ["O", "K"] 1 (by decide) (by decide) (by decide) (by decide) (by decide)
      (by decide) (by decide)
  have h5 := h.2.2.2.2.1 (markDone cmd1 "O:K" "t9") (by decide)
  exact ⟨h.1, h.2.1, h.2.2.1, h.2.2.2.1, h5.1, h5.2, h.2.2.2.2.2⟩

/-! ### C8: per-device ids start at 1, grow strictly, and are never reused -/

/-- C8: the id handed out by the per-device sequencer equals the stored
sequence value plus one — so a device whose counter was never used (fresh
device, or any state where its counter is 0) gets id 1 — and after any
interleaving of further operations (enqueues, polls, batch or structured
acks — including acks that delete the device's queue entry), the next id
assigned to the same device is strictly larger than the earlier one: ids
are strictly increasing and never reused within the device's lifetime. -/
theorem device_ids_monotone (st : ServerState) (sn text now : String)
    (ops : List Op) (text2 now2 : String) :
    (queueCommand st sn text now).1.id = (nextCommandIdFor st sn).1
    ∧ (nextCommandIdFor st sn).1 = seqOf st sn + 1
    ∧ (seqOf st sn = 0 → (queueCommand st sn text now).1.id = 1)
    ∧ (queueCommand (ops.foldl applyOp (queueCommand st sn text now).2) sn text2 now2).1.id
        > (queueCommand st sn text now).1.id := by
  refine ⟨rfl, rfl, ?_, ?_⟩
  · intro h
    show seqOf st sn + 1 = 1
    rw [h]
  · have h1 : seqOf (queueCommand st sn text now).2 sn = seqOf st sn + 1 := by
      rw [seqOf_queueCommand]
      simp
    have h2 := seqOf_foldl_mono ops (queueCommand st sn text now).2 sn
    rw [h1] at h2
    show seqOf (ops.foldl applyOp (queueCommand st sn text now).2) sn + 1
        > seqOf st sn + 1
    omega

/-- Witness for C8: device `A1` starts at id 1; after a poll and a batch ack
that empties and deletes its queue entry, the next enqueue still gets a
strictly larger id. -/
theorem device_ids_monotone_witness :
    (queueCommand emptyState "A1" "CHECK" "t0").1.id = 1
    ∧ (queueCommand ([Op.poll "A1" "t1", Op.batchAck "A1" "C:1:OK" "t2"].foldl applyOp
        (queueCommand emptyState "A1" "CHECK" "t0").2) "A1" "CHECK" "t3").1.id
      > (queueCommand emptyState "A1" "CHECK" "t0").1.id := by
  have h := device_ids_monotone emptyState "A1" "CHECK" "t0"
      [Op.poll "A1" "t1", Op.batchAck "A1" "C:1:OK" "t2"] "CHECK" "t3"
  exact ⟨h.2.2.1 (by decide), h.2.2.2⟩

/-! ### C9: no done command survives any operation -/

/-- No queue stored in the state holds a command with status `"done"`. -/
def noDoneStored (st : ServerState) : Prop :=
  ∀ sn, ∀ c ∈ queueOf st sn, c.status ≠ CmdStatus.done

theorem queueOf_queueUpdate_subset (st : ServerState) (SN : String)
    (arr1 : List Command) (hsub : ∀ x ∈ arr1, x ∈ queueOf st SN) (sn : String) :
    ∀ c ∈ queueOf { st with deviceCommands := queueUpdate st.deviceCommands SN arr1 } sn,
      c ∈ queueOf st sn := by
  intro c hc
  simp only [queueOf, mapGet_queueUpdate] at hc
  by_cases hsn : SN = sn
  · subst hsn
    rw [if_pos rfl] at hc
    exact hsub c hc
  · rw [if_neg hsn] at hc
    exact hc

theorem devicecmdPost_queueOf_subset (st : ServerState) (q : Option String)
    (body : AckBody) (now sn : String) :
    ∀ c ∈ queueOf (devicecmdPost st q body now).2.2 sn, c ∈ queueOf st sn := by
  intro c hc
  simp only [devicecmdPost] at hc
  repeat' split at hc
  all_goals first
    | exact hc
    | exact queueOf_queueUpdate_subset st _ _
        (fun x hx => ackFirst_fst_subset _ _ _ _ x hx) sn c hc

theorem noDone_applyOp (st : ServerState) (op : Op) (h : noDoneStored st) :
    noDoneStored (applyOp st op) := by
  cases op with
  | enqueue sn0 text now =>
    intro sn c hc
    simp only [applyOp] at hc
    rw [queueOf_queueCommand] at hc
    by_cases hsn : sn0 = sn
    · rw [if_pos hsn] at hc
      rcases List.mem_append.mp hc with h1 | h1
      · exact h sn0 c h1
      · have hce : c = (queueCommand st sn0 text now).1 := by simpa using h1
        rw [hce]
        intro hd
        exact CmdStatus.noConfusion hd
    · rw [if_neg hsn] at hc
      exact h sn c hc
  | poll sn0 now =>
    intro sn c hc
    simp only [applyOp] at hc
    by_cases hSN : sn0 = ""
    · rw [hSN] at hc
      simp only [getrequest, if_pos rfl] at hc
      exact h sn c hc
    · by_cases hp : (queueOf st sn0).filter (fun x => x.status == CmdStatus.pending) = []
      · rw [getrequest_no_pending st sn0 now hp] at hc
        exact h sn c hc
      · rw [getrequest_queueOf st sn0 now hSN hp sn] at hc
        by_cases hsn : sn0 = sn
        · rw [if_pos hsn] at hc
          obtain ⟨c0, hc0, rfl⟩ := List.mem_map.mp hc
          by_cases hst : c0.status = CmdStatus.pending
          · rw [if_pos (by simp [hst])]
            intro hd
            exact CmdStatus.noConfusion hd
          · rw [if_neg (by simp [hst])]
            exact h sn0 c0 hc0
        · rw [if_neg hsn] at hc
          exact h sn c hc
  | batchAck sn0 info now =>
    intro sn c hc
    simp only [applyOp] at hc
    by_cases hcond : sn0 = "" ∨ info = ""
    · simp only [devicecmdGet, if_pos hcond] at hc
      exact h sn c hc
    · push_neg at hcond
      rw [devicecmdGet_eq st sn0 info now hcond.1 hcond.2] at hc
      have hmem := queueOf_queueUpdate_subset st sn0 _
          (fun x hx => processAckLines_fst_subset _ (queueOf st sn0) now x hx) sn c hc
      exact h sn c hmem
  | structAck q body now =>
    intro sn c hc
    exact h sn c (devicecmdPost_queueOf_subset st q body now sn c hc)

/-- C9: starting from the empty store, after any sequence of operations
(enqueues, polls, batch acks, structured acks) no queue held in the state
contains a command with status done — a command marked done by an
acknowledgment is removed within that same acknowledgment, so stored queues
only ever contain pending or sent commands. -/
theorem queues_never_hold_done (ops : List Op) :
    noDoneStored (ops.foldl applyOp emptyState) := by
  have hbase : noDoneStored emptyState := by
    intro sn c hc
    simp [queueOf, emptyState, mapGet] at hc
  have hind : ∀ (l : List Op) (st : ServerState),
      noDoneStored st → noDoneStored (l.foldl applyOp st) := by
    intro l
    induction l with
    | nil => exact fun st h => h
    | cons op rest ih => exact fun st h => ih _ (noDone_applyOp st op h)
  exact hind ops emptyState hbase
